import Mathlib

/-!
# Inventory Movement Engine — verification development

Shallow embedding of the core inventory operations of `src/backend/main.py`
(FastAPI warehouse management system): direct transfers, the shipment
lifecycle (create / accept / reject), dispensing, and supplier arrivals.

The database session is modelled as an explicit `State` record holding the
rows of each table as lists (in insertion order, as returned by the
unordered queries of the source).  Each endpoint body becomes a function
`State → Except Err State`; the commit-or-rollback discipline of the source
(`db.commit()` at the end of the handler, `db.rollback()` in every `except`
branch) is captured by the `run*` wrappers, which return the input state
unchanged alongside the error whenever the body fails.

Quantities of stock rows are `Int` because the source performs unchecked
subtraction on Python ints (which can go below zero).  Fresh `uuid4`
identifiers are modelled by a counter `nextId` threaded through the state.
-/

deriving instance DecidableEq for Except

namespace Med

/-- One row of the `medicines` or `medical_devices` table (the two tables
share this shape in `database.py`).  `branchId = none` is the central
warehouse. -/
structure StockItem where
  id : String
  name : String
  categoryId : Option String
  purchasePrice : Int
  sellPrice : Int
  quantity : Int
  branchId : Option String
deriving DecidableEq

/-- One row of the `shipments` table. -/
structure Shipment where
  id : String
  toBranchId : String
  status : String
  rejectionReason : Option String
  createdAt : Nat
  acceptedAt : Option Nat
deriving DecidableEq

/-- One row of the `shipment_items` table. -/
structure ShipmentItem where
  id : String
  shipmentId : String
  itemType : String
  itemId : String
  itemName : String
  quantity : Int
deriving DecidableEq

/-- One row of the `transfers` table. -/
structure TransferRec where
  id : String
  medicineId : String
  medicineName : String
  quantity : Nat
  fromBranchId : String
  toBranchId : String
deriving DecidableEq

/-- One row of the `notifications` table. -/
structure Notice where
  id : String
  branchId : String
  title : String
  message : String
  isRead : Bool
deriving DecidableEq

/-- A patient or employee row (only the fields the dispensing operation
reads: identity and the two name components that get snapshotted). -/
structure Person where
  id : String
  firstName : String
  lastName : String
deriving DecidableEq

/-- One row of the `dispensing_records` table. -/
structure DispRecord where
  id : String
  patientId : String
  patientName : String
  employeeId : String
  employeeName : String
  branchId : String
deriving DecidableEq

/-- One row of the `dispensing_items` table. -/
structure DispItem where
  id : String
  recordId : String
  itemType : String
  itemId : String
  itemName : String
  quantity : Int
deriving DecidableEq

/-- One row of the `arrivals` table (field names are `medicine_id` /
`medicine_name` there) or of the `device_arrivals` table (`device_id` /
`device_name`); both tables have this shape, so it is shared with neutral
field names. -/
structure ArrivalRec where
  id : String
  itemId : String
  itemName : String
  quantity : Nat
  purchasePrice : Int
  sellPrice : Int
deriving DecidableEq

/-- The database state seen by the core operations. -/
structure State where
  medicines : List StockItem := []
  devices : List StockItem := []
  shipments : List Shipment := []
  shipmentItems : List ShipmentItem := []
  transfers : List TransferRec := []
  notices : List Notice := []
  patients : List Person := []
  employees : List Person := []
  dispRecords : List DispRecord := []
  dispItems : List DispItem := []
  arrivals : List ArrivalRec := []
  deviceArrivals : List ArrivalRec := []
  nextId : Nat := 0
deriving DecidableEq

/-- Error kinds of the core, following the spec's taxonomy in §7.  Each
`raise HTTPException` site of a core handler is mapped to the kind its
condition denotes: a missing referenced entity is `notFound` (404 in the
source), a quantity check is `insufficientStock` (400, "Not enough ..." /
"Insufficient ..."), and the shipment idempotency guard is `conflict`
(409). -/
inductive Err where
  | notFound
  | insufficientStock
  | conflict
deriving DecidableEq

/-- `uuid.uuid4()` is modelled by a deterministic supply of distinct
identifiers indexed by the `nextId` counter of the state. -/
def freshId (n : Nat) : String := "gen-" ++ toString n

/-- Mutating the single row returned by `query(...).first()`: rewrite the
first element satisfying `p` with `f`, leave everything else in place. -/
def updateFirst {α : Type} (p : α → Bool) (f : α → α) : List α → List α
  | [] => []
  | x :: xs => if p x then f x :: xs else x :: updateFirst p f xs

/-- Row filter for the warehouse-resident copy of an item: matched by id
with `branch_id IS NULL`. -/
def mainPred (i : String) : StockItem → Bool :=
  fun m => m.id == i && m.branchId == none

/-- Row filter for a branch-side copy: matched by name and branch id
(the name-based upsert convention of Transfer / Shipment-accept). -/
def branchPred (n b : String) : StockItem → Bool :=
  fun m => m.name == n && m.branchId == some b

/-- Row filter for a branch-local item matched by id and branch
(dispensing). -/
def localPred (i b : String) : StockItem → Bool :=
  fun m => m.id == i && m.branchId == some b

/-- Total quantity of the rows of `l` satisfying `p`. -/
def qtys (p : StockItem → Bool) : List StockItem → Int
  | [] => 0
  | m :: rest => (if p m then m.quantity else 0) + qtys p rest

/-- Observable: warehouse-resident quantity of the item with id `i`. -/
def warehouseQty (s : State) (i : String) : Int :=
  qtys (mainPred i) s.medicines

/-- Observable: branch-side medicine quantity under name `n` at branch
`b` (the name-matching convention of §4.3). -/
def branchQty (s : State) (n b : String) : Int :=
  qtys (branchPred n b) s.medicines

/-- Observable: status of the shipment with id `sid`, if it exists. -/
def shipmentStatus (s : State) (sid : String) : Option String :=
  (s.shipments.find? (fun sh => sh.id == sid)).map (fun sh => sh.status)

/-- All stock quantities (medicines and devices, at every location) are
non-negative. -/
def Nonneg (s : State) : Prop :=
  (∀ m ∈ s.medicines, 0 ≤ m.quantity) ∧ (∀ d ∈ s.devices, 0 ≤ d.quantity)

/-! ## Transfers (`create_transfers`, main.py lines 709–760) -/

/-- Modelled from the spec: the request models live in `schemas.py`, which
is not part of `src/`.  Per §3 of the spec quantities are integers that are
at least 0, so the batch entry carries a `Nat` quantity; the other fields
follow the §4.3 input shape (medicine id and name, optional informational
source location, destination location). -/
structure TransferData where
  medicineId : String
  medicineName : String
  quantity : Nat
  fromBranchId : Option String
  toBranchId : String
deriving DecidableEq

/-- Python's `transfer_data.from_branch_id or "main"`: `None` and the empty
string are both falsy, so both yield the default label `"main"`. -/
def fromLabel : Option String → String
  | none => "main"
  | some b => if b = "" then "main" else b

/-- One iteration of the loop of `create_transfers`: check the warehouse
copy, decrement it, upsert the branch copy by name, append a transfer
record. -/
def applyTransfer (e : TransferData) (s : State) : Except Err State :=
  match s.medicines.find? (mainPred e.medicineId) with
  | none => .error .insufficientStock
  | some main =>
    if main.quantity < (e.quantity : Int) then .error .insufficientStock
    else
      let meds1 := updateFirst (mainPred e.medicineId)
        (fun m => { m with quantity := m.quantity - (e.quantity : Int) }) s.medicines
      let s1 : State :=
        match meds1.find? (branchPred e.medicineName e.toBranchId) with
        | some _ =>
          { s with medicines :=
              (updateFirst (branchPred e.medicineName e.toBranchId)
                (fun m => { m with quantity := m.quantity + (e.quantity : Int) }) meds1) }
        | none =>
          { s with
            medicines := meds1 ++ [{
              id := freshId s.nextId, name := e.medicineName,
              categoryId := main.categoryId, purchasePrice := main.purchasePrice,
              sellPrice := main.sellPrice, quantity := (e.quantity : Int),
              branchId := some e.toBranchId }],
            nextId := s.nextId + 1 }
      .ok { s1 with
        transfers := s1.transfers ++ [{
          id := freshId s1.nextId,
          medicineId := e.medicineId, medicineName := e.medicineName,
          quantity := e.quantity,
          fromBranchId := fromLabel e.fromBranchId,
          toBranchId := e.toBranchId }],
        nextId := s1.nextId + 1 }

/-- Body of `create_transfers`: the whole batch in request order. -/
def createTransfers : List TransferData → State → Except Err State
  | [], s => .ok s
  | e :: rest, s =>
    match applyTransfer e s with
    | .error err => .error err
    | .ok s1 => createTransfers rest s1

/-- The `/transfers` endpoint with its commit-or-rollback discipline:
on error the session is rolled back, so the observable state is the input
state. -/
def runTransfers (b : List TransferData) (s : State) : State × Option Err :=
  match createTransfers b s with
  | .ok s' => (s', none)
  | .error e => (s, some e)

/-! ## Shipment creation (`create_shipment`, main.py lines 823–894) -/

/-- One line of the raw `shipment_data` dict (`medicine_id`/`device_id`
plus `quantity`; the quantity comes from raw JSON, hence `Int`). -/
structure ShipmentLine where
  itemId : String
  quantity : Int
deriving DecidableEq

/-- The raw `shipment_data` dict of `create_shipment`; an absent
`medicines` / `medical_devices` key is the empty list. -/
structure ShipmentData where
  toBranchId : String
  medicines : List ShipmentLine
  medicalDevices : List ShipmentLine
deriving DecidableEq

/-- The per-line loop of `create_shipment` for one kind of stock: validate
(read-only) that the warehouse copy holds at least the requested quantity,
and build the `ShipmentItem` rows with the warehouse item's current name
snapshotted.  `n` indexes the id supply. -/
def checkShipLines (kind : String) (stock : List StockItem) (sid : String) :
    List ShipmentLine → Nat → Except Err (List ShipmentItem)
  | [], _ => .ok []
  | l :: rest, n =>
    match stock.find? (mainPred l.itemId) with
    | none => .error .insufficientStock
    | some it =>
      if it.quantity < l.quantity then .error .insufficientStock
      else
        (checkShipLines kind stock sid rest (n + 1)).map
          (fun items => { id := freshId n, shipmentId := sid, itemType := kind,
                          itemId := l.itemId, itemName := it.name,
                          quantity := l.quantity } :: items)

/-- Body of `create_shipment`: persist the pending shipment and its items
verbatim and emit one notification to the destination branch; stock rows
are only read, never written. -/
def createShipment (d : ShipmentData) (now : Nat) (s : State) : Except Err State :=
  let sid := freshId s.nextId
  let n1 := s.nextId + 1 + d.medicines.length
  let n2 := n1 + d.medicalDevices.length
  match checkShipLines "medicine" s.medicines sid d.medicines (s.nextId + 1) with
  | .error e => .error e
  | .ok medItems =>
    match checkShipLines "medical_device" s.devices sid d.medicalDevices n1 with
    | .error e => .error e
    | .ok devItems =>
      .ok { s with
        shipments := s.shipments ++ [{
          id := sid, toBranchId := d.toBranchId, status := "pending",
          rejectionReason := none, createdAt := now, acceptedAt := none }],
        shipmentItems := s.shipmentItems ++ medItems ++ devItems,
        notices := s.notices ++ [{
          id := freshId n2, branchId := d.toBranchId,
          title := "Новая отправка",
          message := "Поступление от главного склада", isRead := false }],
        nextId := n2 + 1 }

/-- The `/shipments` POST endpoint with commit-or-rollback. -/
def runCreateShipment (d : ShipmentData) (now : Nat) (s : State) : State × Option Err :=
  match createShipment d now s with
  | .ok s' => (s', none)
  | .error e => (s, some e)

/-! ## Shipment acceptance (`accept_shipment`, main.py lines 896–1007) -/

/-- The per-item ledger effect of `accept_shipment` on one stock table
(the source has two verbatim copies of this block, one for medicines and
one for devices): if a warehouse copy matched by id exists its quantity is
decremented — with no check against the requested quantity — and the
branch copy is upserted by name, created from the warehouse item's catalog
fields when those exist and from `None`/0/0 defaults otherwise. -/
def shipIntoBranch (toBranch : String) (it : ShipmentItem)
    (stock : List StockItem) (nextId : Nat) : List StockItem × Nat :=
  let stock1 :=
    match stock.find? (mainPred it.itemId) with
    | some _ => updateFirst (mainPred it.itemId)
        (fun m => { m with quantity := m.quantity - it.quantity }) stock
    | none => stock
  match stock1.find? (branchPred it.itemName toBranch) with
  | some _ =>
    (updateFirst (branchPred it.itemName toBranch)
      (fun m => { m with quantity := m.quantity + it.quantity }) stock1, nextId)
  | none =>
    (stock1 ++ [{
      id := freshId nextId, name := it.itemName,
      categoryId := match stock.find? (mainPred it.itemId) with
                    | some m => m.categoryId
                    | none => none,
      purchasePrice := match stock.find? (mainPred it.itemId) with
                       | some m => m.purchasePrice
                       | none => 0,
      sellPrice := match stock.find? (mainPred it.itemId) with
                   | some m => m.sellPrice
                   | none => 0,
      quantity := it.quantity, branchId := some toBranch }], nextId + 1)

/-- Dispatch of one shipment item on its `item_type`: the source treats
`"medicine"` in the first branch and everything else as a medical
device. -/
def acceptItem (toBranch : String) (s : State) (it : ShipmentItem) : State :=
  if it.itemType = "medicine" then
    { s with medicines := (shipIntoBranch toBranch it s.medicines s.nextId).1,
             nextId := (shipIntoBranch toBranch it s.medicines s.nextId).2 }
  else
    { s with devices := (shipIntoBranch toBranch it s.devices s.nextId).1,
             nextId := (shipIntoBranch toBranch it s.devices s.nextId).2 }

/-- Body of `accept_shipment`: 404 when the shipment does not exist, 409
when its status is not `pending`; otherwise every shipment item's ledger
effect is applied and the shipment is marked accepted with `accepted_at`
set, all committed together. -/
def acceptShipment (sid : String) (now : Nat) (s : State) : Except Err State :=
  match s.shipments.find? (fun sh => sh.id == sid) with
  | none => .error .notFound
  | some sh =>
    if sh.status ≠ "pending" then .error .conflict
    else
      let items := s.shipmentItems.filter (fun it => it.shipmentId == sid)
      let s1 := items.foldl (acceptItem sh.toBranchId) s
      .ok { s1 with
        shipments := updateFirst (fun x => x.id == sid)
          (fun x => { x with status := "accepted", acceptedAt := some now })
          s1.shipments }

/-- The accept endpoint with commit-or-rollback. -/
def runAccept (sid : String) (now : Nat) (s : State) : State × Option Err :=
  match acceptShipment sid now s with
  | .ok s' => (s', none)
  | .error e => (s, some e)

/-! ## Shipment rejection (`reject_shipment`, main.py lines 1009–1018) -/

/-- Body of `reject_shipment`: 404 when the shipment does not exist;
otherwise — with no check of the current status — the status is set to
`rejected` and the reason stored.  No stock row is touched. -/
def rejectShipment (sid : String) (reason : String) (s : State) : Except Err State :=
  match s.shipments.find? (fun sh => sh.id == sid) with
  | none => .error .notFound
  | some _ =>
    .ok { s with
      shipments := updateFirst (fun x => x.id == sid)
        (fun x => { x with status := "rejected", rejectionReason := some reason })
        s.shipments }

/-! ## Dispensing (`create_dispensing_record`, main.py lines 1141–1220) -/

/-- One line of the raw `request["items"]` list (raw JSON dict, so the
quantity is an arbitrary `Int`). -/
structure DispenseLine where
  type : String
  id : String
  name : String
  quantity : Int
deriving DecidableEq

/-- The raw dispensing request dict. -/
structure DispenseRequest where
  patientId : String
  employeeId : String
  branchId : String
  items : List DispenseLine
deriving DecidableEq

/-- One iteration of the item loop of `create_dispensing_record`: a
`"medicine"` or `"medical_device"` line decrements the branch-local stock
row (matched by id and branch) after an insufficiency check and appends a
dispensing item; a line of any other type is skipped without effect. -/
def dispenseItem (branchId recordId : String) (s : State) (l : DispenseLine) :
    Except Err State :=
  if l.type = "medicine" then
    match s.medicines.find? (localPred l.id branchId) with
    | none => .error .insufficientStock
    | some m =>
      if m.quantity < l.quantity then .error .insufficientStock
      else .ok { s with
        medicines := updateFirst (localPred l.id branchId)
          (fun x => { x with quantity := x.quantity - l.quantity }) s.medicines,
        dispItems := s.dispItems ++ [{
          id := freshId s.nextId, recordId := recordId, itemType := "medicine",
          itemId := l.id, itemName := l.name, quantity := l.quantity }],
        nextId := s.nextId + 1 }
  else if l.type = "medical_device" then
    match s.devices.find? (localPred l.id branchId) with
    | none => .error .insufficientStock
    | some m =>
      if m.quantity < l.quantity then .error .insufficientStock
      else .ok { s with
        devices := updateFirst (localPred l.id branchId)
          (fun x => { x with quantity := x.quantity - l.quantity }) s.devices,
        dispItems := s.dispItems ++ [{
          id := freshId s.nextId, recordId := recordId,
          itemType := "medical_device",
          itemId := l.id, itemName := l.name, quantity := l.quantity }],
        nextId := s.nextId + 1 }
  else .ok s

/-- The item loop, threading the session state in request order. -/
def dispenseItems (branchId recordId : String) :
    List DispenseLine → State → Except Err State
  | [], s => .ok s
  | l :: rest, s =>
    match dispenseItem branchId recordId s l with
    | .error e => .error e
    | .ok s1 => dispenseItems branchId recordId rest s1

/-- Body of `create_dispensing_record`: resolve patient and employee (404
when either is missing), create the record with both names snapshotted,
then process every item line. -/
def createDispensing (r : DispenseRequest) (s : State) : Except Err State :=
  match s.patients.find? (fun p => p.id == r.patientId),
        s.employees.find? (fun p => p.id == r.employeeId) with
  | some patient, some employee =>
    let recordId := freshId s.nextId
    let s1 : State := { s with
      dispRecords := s.dispRecords ++ [{
        id := recordId, patientId := r.patientId,
        patientName := patient.firstName ++ " " ++ patient.lastName,
        employeeId := r.employeeId,
        employeeName := employee.firstName ++ " " ++ employee.lastName,
        branchId := r.branchId }],
      nextId := s.nextId + 1 }
    dispenseItems r.branchId recordId r.items s1
  | _, _ => .error .notFound

/-- The `/dispensing` endpoint with commit-or-rollback. -/
def runDispensing (r : DispenseRequest) (s : State) : State × Option Err :=
  match createDispensing r s with
  | .ok s' => (s', none)
  | .error e => (s, some e)

/-! ## Arrivals (`create_arrivals` 1228–1260, `create_device_arrivals`
1269–1298) -/

/-- Modelled from the spec: the batch arrival request models live in
`schemas.py`, which is not part of `src/`.  Per §3 of the spec quantities
are integers that are at least 0, so the entry carries a `Nat` quantity;
the other fields follow the §4.6 input shape (item id and name, purchase
price, optional sell price).  Medicine arrivals name the id field
`medicine_id`, device arrivals `device_id`; the shared shape uses neutral
names. -/
structure ArrivalData where
  itemId : String
  itemName : String
  quantity : Nat
  purchasePrice : Int
  sellPrice : Option Int
deriving DecidableEq

/-- The ledger half of one arrival entry: if a warehouse copy matched by
id exists, increment its quantity, overwrite the purchase price
unconditionally and the sell price only when one was supplied; otherwise
leave the stock untouched. -/
def arriveInto (e : ArrivalData) (stock : List StockItem) : List StockItem :=
  match stock.find? (mainPred e.itemId) with
  | some _ => updateFirst (mainPred e.itemId)
      (fun m => { m with
        quantity := m.quantity + (e.quantity : Int),
        purchasePrice := e.purchasePrice,
        sellPrice := match e.sellPrice with
                     | some sp => sp
                     | none => m.sellPrice }) stock
  | none => stock

/-- One iteration of the loop of `create_arrivals`: always append the
immutable arrival record (sell price defaulting to 0), then apply the
ledger half to the warehouse medicines. -/
def applyArrival (e : ArrivalData) (s : State) : State :=
  { s with
    arrivals := s.arrivals ++ [{
      id := freshId s.nextId, itemId := e.itemId, itemName := e.itemName,
      quantity := e.quantity, purchasePrice := e.purchasePrice,
      sellPrice := e.sellPrice.getD 0 }],
    medicines := arriveInto e s.medicines,
    nextId := s.nextId + 1 }

/-- Body of `create_arrivals` over the whole batch; no check in the loop
can fail, so the operation is total. -/
def createArrivals (b : List ArrivalData) (s : State) : State :=
  b.foldl (fun st e => applyArrival e st) s

/-- One iteration of the loop of `create_device_arrivals` (verbatim mirror
of `applyArrival` on the device tables). -/
def applyDeviceArrival (e : ArrivalData) (s : State) : State :=
  { s with
    deviceArrivals := s.deviceArrivals ++ [{
      id := freshId s.nextId, itemId := e.itemId, itemName := e.itemName,
      quantity := e.quantity, purchasePrice := e.purchasePrice,
      sellPrice := e.sellPrice.getD 0 }],
    devices := arriveInto e s.devices,
    nextId := s.nextId + 1 }

/-- Body of `create_device_arrivals` over the whole batch. -/
def createDeviceArrivals (b : List ArrivalData) (s : State) : State :=
  b.foldl (fun st e => applyDeviceArrival e st) s

/-! ## List-level lemmas about `updateFirst`, `find?` and `qtys` -/

theorem updateFirst_of_find?_none {α : Type} {p : α → Bool} {f : α → α} {l : List α}
    (h : l.find? p = none) : updateFirst p f l = l := by
  induction l with
  | nil => rfl
  | cons a tl ih =>
    cases hpa : p a with
    | true => rw [List.find?_cons_of_pos _ hpa] at h; exact absurd h (by simp)
    | false =>
      rw [List.find?_cons_of_neg _ (by simp [hpa])] at h
      simp only [updateFirst, hpa, Bool.false_eq_true, if_false, ih h]

theorem mem_updateFirst {α : Type} {p : α → Bool} {f : α → α} {l : List α} {x : α}
    (hx : x ∈ updateFirst p f l) : x ∈ l ∨ ∃ y, l.find? p = some y ∧ x = f y := by
  induction l with
  | nil => simp [updateFirst] at hx
  | cons a tl ih =>
    cases hpa : p a with
    | true =>
      simp only [updateFirst, hpa, if_true] at hx
      rcases List.mem_cons.mp hx with h | h
      · exact Or.inr ⟨a, List.find?_cons_of_pos _ hpa, h⟩
      · exact Or.inl (List.mem_cons_of_mem _ h)
    | false =>
      simp only [updateFirst, hpa, Bool.false_eq_true, if_false] at hx
      rcases List.mem_cons.mp hx with h | h
      · exact Or.inl (h ▸ List.mem_cons_self _ _)
      · rcases ih h with h1 | ⟨y, hy, hxy⟩
        · exact Or.inl (List.mem_cons_of_mem _ h1)
        · refine Or.inr ⟨y, ?_, hxy⟩
          rw [List.find?_cons_of_neg _ (by simp [hpa])]
          exact hy

theorem find?_updateFirst_pos {α : Type} {p : α → Bool} {f : α → α} {l : List α} {y : α}
    (hy : l.find? p = some y) (hf : p (f y) = true) :
    (updateFirst p f l).find? p = some (f y) := by
  induction l with
  | nil => simp at hy
  | cons a tl ih =>
    cases hpa : p a with
    | true =>
      rw [List.find?_cons_of_pos _ hpa] at hy
      injection hy with hya
      subst hya
      simp only [updateFirst, hpa, if_true]
      exact List.find?_cons_of_pos _ hf
    | false =>
      rw [List.find?_cons_of_neg _ (by simp [hpa])] at hy
      simp only [updateFirst, hpa, Bool.false_eq_true, if_false]
      rw [List.find?_cons_of_neg _ (by simp [hpa])]
      exact ih hy

theorem qtys_append (p : StockItem → Bool) (l1 l2 : List StockItem) :
    qtys p (l1 ++ l2) = qtys p l1 + qtys p l2 := by
  induction l1 with
  | nil => simp [qtys]
  | cons a tl ih => simp only [List.cons_append, qtys, List.append_eq, ih]; ring

theorem qtys_updateFirst {q p : StockItem → Bool} {f : StockItem → StockItem}
    {l : List StockItem} {y : StockItem}
    (hy : l.find? q = some y) (hpf : ∀ x, p (f x) = p x) :
    qtys p (updateFirst q f l) =
      qtys p l + (if p y then (f y).quantity - y.quantity else 0) := by
  induction l with
  | nil => simp at hy
  | cons a tl ih =>
    cases hqa : q a with
    | true =>
      rw [List.find?_cons_of_pos _ hqa] at hy
      injection hy with hya
      subst hya
      simp only [updateFirst, hqa, if_true, qtys, hpf]
      cases hpa : p a <;> simp only [hpa, Bool.false_eq_true, if_true, if_false] <;> ring
    | false =>
      rw [List.find?_cons_of_neg _ (by simp [hqa])] at hy
      simp only [updateFirst, hqa, Bool.false_eq_true, if_false, qtys, ih hy]
      ring

theorem nonneg_updateFirst {p : StockItem → Bool} {f : StockItem → StockItem}
    {l : List StockItem}
    (h : ∀ m ∈ l, 0 ≤ m.quantity)
    (hf : ∀ y, l.find? p = some y → 0 ≤ (f y).quantity) :
    ∀ m ∈ updateFirst p f l, 0 ≤ m.quantity := by
  intro m hm
  rcases mem_updateFirst hm with h1 | ⟨y, hy, rfl⟩
  · exact h m h1
  · exact hf y hy

/-! ## Non-negativity preservation, operation by operation -/

theorem nonneg_applyTransfer {e : TransferData} {s s' : State}
    (hs : Nonneg s) (h : applyTransfer e s = .ok s') : Nonneg s' := by
  unfold applyTransfer at h
  split at h
  · exact absurd h (by simp)
  · rename_i main hm
    split at h
    · exact absurd h (by simp)
    · rename_i hq
      have hmeds1 : ∀ m ∈ updateFirst (mainPred e.medicineId)
          (fun m => { m with quantity := m.quantity - (e.quantity : Int) })
          s.medicines, 0 ≤ m.quantity := by
        refine nonneg_updateFirst hs.1 ?_
        intro y hy
        rw [hm] at hy
        injection hy with hy
        subst hy
        simpa using sub_nonneg.mpr (not_lt.mp hq)
      dsimp only [] at h
      split at h
      · simp only [Except.ok.injEq] at h
        subst h
        refine ⟨?_, hs.2⟩
        refine nonneg_updateFirst hmeds1 ?_
        intro y hy
        have hy0 := hmeds1 y (List.mem_of_find?_eq_some hy)
        have := Int.natCast_nonneg e.quantity
        simpa using add_nonneg hy0 this
      · simp only [Except.ok.injEq] at h
        subst h
        refine ⟨?_, hs.2⟩
        intro m hmem
        rcases List.mem_append.mp hmem with h1 | h1
        · exact hmeds1 m h1
        · rcases List.mem_singleton.mp h1 with rfl
          simp only []
          exact Int.natCast_nonneg e.quantity

theorem nonneg_createTransfers {b : List TransferData} {s s' : State}
    (hs : Nonneg s) (h : createTransfers b s = .ok s') : Nonneg s' := by
  induction b generalizing s with
  | nil => simp only [createTransfers, Except.ok.injEq] at h; subst h; exact hs
  | cons e rest ih =>
    simp only [createTransfers] at h
    cases he : applyTransfer e s with
    | error err => rw [he] at h; exact absurd h (by simp)
    | ok s1 =>
      rw [he] at h
      exact ih (nonneg_applyTransfer hs he) h

theorem createShipment_stock_frame {d : ShipmentData} {now : Nat} {s s' : State}
    (h : createShipment d now s = .ok s') :
    s'.medicines = s.medicines ∧ s'.devices = s.devices := by
  unfold createShipment at h
  dsimp only [] at h
  split at h
  · exact absurd h (by simp)
  · split at h
    · exact absurd h (by simp)
    · simp only [Except.ok.injEq] at h
      subst h
      exact ⟨rfl, rfl⟩

theorem nonneg_createShipment {d : ShipmentData} {now : Nat} {s s' : State}
    (hs : Nonneg s) (h : createShipment d now s = .ok s') : Nonneg s' := by
  obtain ⟨h1, h2⟩ := createShipment_stock_frame h
  exact ⟨h1 ▸ hs.1, h2 ▸ hs.2⟩

theorem nonneg_rejectShipment {sid reason : String} {s s' : State}
    (hs : Nonneg s) (h : rejectShipment sid reason s = .ok s') : Nonneg s' := by
  unfold rejectShipment at h
  cases hsh : s.shipments.find? (fun sh => sh.id == sid) with
  | none => rw [hsh] at h; exact absurd h (by simp)
  | some sh =>
    rw [hsh] at h
    simp only [Except.ok.injEq] at h
    subst h
    exact hs

theorem nonneg_dispenseItem {branchId recordId : String} {l : DispenseLine}
    {s s' : State} (hs : Nonneg s) (h : dispenseItem branchId recordId s l = .ok s') :
    Nonneg s' := by
  unfold dispenseItem at h
  split at h
  · split at h
    · exact absurd h (by simp)
    · rename_i hm
      split at h
      · exact absurd h (by simp)
      · rename_i hq
        simp only [Except.ok.injEq] at h
        subst h
        refine ⟨?_, hs.2⟩
        refine nonneg_updateFirst hs.1 ?_
        intro y hy
        rw [hm] at hy
        injection hy with hy
        subst hy
        simpa using sub_nonneg.mpr (not_lt.mp hq)
  · split at h
    · split at h
      · exact absurd h (by simp)
      · rename_i hm
        split at h
        · exact absurd h (by simp)
        · rename_i hq
          simp only [Except.ok.injEq] at h
          subst h
          refine ⟨hs.1, ?_⟩
          refine nonneg_updateFirst hs.2 ?_
          intro y hy
          rw [hm] at hy
          injection hy with hy
          subst hy
          simpa using sub_nonneg.mpr (not_lt.mp hq)
    · simp only [Except.ok.injEq] at h
      subst h
      exact hs

theorem nonneg_dispenseItems {branchId recordId : String} {ls : List DispenseLine}
    {s s' : State} (hs : Nonneg s)
    (h : dispenseItems branchId recordId ls s = .ok s') : Nonneg s' := by
  induction ls generalizing s with
  | nil => simp only [dispenseItems, Except.ok.injEq] at h; subst h; exact hs
  | cons l rest ih =>
    simp only [dispenseItems] at h
    cases he : dispenseItem branchId recordId s l with
    | error err => rw [he] at h; exact absurd h (by simp)
    | ok s1 =>
      rw [he] at h
      exact ih (nonneg_dispenseItem hs he) h

theorem nonneg_createDispensing {r : DispenseRequest} {s s' : State}
    (hs : Nonneg s) (h : createDispensing r s = .ok s') : Nonneg s' := by
  unfold createDispensing at h
  split at h
  · dsimp only [] at h
    refine nonneg_dispenseItems ?_ h
    exact ⟨hs.1, hs.2⟩
  · exact absurd h (by simp)

theorem nonneg_arriveInto {e : ArrivalData} {stock : List StockItem}
    (hs : ∀ m ∈ stock, 0 ≤ m.quantity) :
    ∀ m ∈ arriveInto e stock, 0 ≤ m.quantity := by
  unfold arriveInto
  cases hm : stock.find? (mainPred e.itemId) with
  | none => exact hs
  | some m =>
    refine nonneg_updateFirst hs ?_
    intro y hy
    have hy0 := hs y (List.mem_of_find?_eq_some hy)
    have := Int.natCast_nonneg e.quantity
    simpa using add_nonneg hy0 this

theorem nonneg_applyArrival {e : ArrivalData} {s : State} (hs : Nonneg s) :
    Nonneg (applyArrival e s) :=
  ⟨nonneg_arriveInto hs.1, hs.2⟩

theorem nonneg_createArrivals {b : List ArrivalData} {s : State} (hs : Nonneg s) :
    Nonneg (createArrivals b s) := by
  induction b generalizing s with
  | nil => exact hs
  | cons e rest ih => exact ih (nonneg_applyArrival hs)

theorem nonneg_applyDeviceArrival {e : ArrivalData} {s : State} (hs : Nonneg s) :
    Nonneg (applyDeviceArrival e s) :=
  ⟨hs.1, nonneg_arriveInto hs.2⟩

theorem nonneg_createDeviceArrivals {b : List ArrivalData} {s : State} (hs : Nonneg s) :
    Nonneg (createDeviceArrivals b s) := by
  induction b generalizing s with
  | nil => exact hs
  | cons e rest ih => exact ih (nonneg_applyDeviceArrival hs)

/-! ## Ledger effect of one accepted shipment item -/

theorem branchPred_ne_mainPred {i n b : String} {y : StockItem}
    (hy : branchPred n b y = true) : mainPred i y = false := by
  simp only [branchPred, Bool.and_eq_true, beq_iff_eq] at hy
  simp [mainPred, hy.2]

theorem mainPred_ne_branchPred {i n b : String} {y : StockItem}
    (hy : mainPred i y = true) : branchPred n b y = false := by
  simp only [mainPred, Bool.and_eq_true, beq_iff_eq] at hy
  simp [branchPred, hy.2]

/-- When a warehouse copy of the shipment item exists, accepting the item
lowers the warehouse quantity for that id by exactly the item's requested
quantity — with no check whatsoever that enough stock remains. -/
theorem shipIntoBranch_qtys_main {toBranch : String} {it : ShipmentItem}
    {stock : List StockItem} {n : Nat} {m : StockItem}
    (hm : stock.find? (mainPred it.itemId) = some m) :
    qtys (mainPred it.itemId) (shipIntoBranch toBranch it stock n).1 =
      qtys (mainPred it.itemId) stock - it.quantity := by
  unfold shipIntoBranch
  rw [hm]
  dsimp only []
  have hmain : mainPred it.itemId m = true := List.find?_some hm
  have h1 : qtys (mainPred it.itemId)
      (updateFirst (mainPred it.itemId)
        (fun x => { x with quantity := x.quantity - it.quantity }) stock) =
      qtys (mainPred it.itemId) stock - it.quantity := by
    rw [@qtys_updateFirst (mainPred it.itemId) (mainPred it.itemId)
      (fun x => { x with quantity := x.quantity - it.quantity }) stock m hm
      (fun x => rfl), if_pos hmain]
    ring
  split
  · rename_i y hy
    dsimp only []
    rw [@qtys_updateFirst (branchPred it.itemName toBranch) (mainPred it.itemId)
      (fun x => { x with quantity := x.quantity + it.quantity }) _ y hy (fun x => rfl),
      if_neg (by simp [branchPred_ne_mainPred (List.find?_some hy)]), h1]
    ring
  · dsimp only []
    rw [qtys_append, h1]
    simp [qtys, mainPred]

/-- When no warehouse copy of the shipment item exists, accepting the item
leaves every warehouse quantity for that id untouched. -/
theorem shipIntoBranch_qtys_main_none {toBranch : String} {it : ShipmentItem}
    {stock : List StockItem} {n : Nat}
    (hm : stock.find? (mainPred it.itemId) = none) :
    qtys (mainPred it.itemId) (shipIntoBranch toBranch it stock n).1 =
      qtys (mainPred it.itemId) stock := by
  unfold shipIntoBranch
  rw [hm]
  dsimp only []
  split
  · rename_i y hy
    dsimp only []
    rw [@qtys_updateFirst (branchPred it.itemName toBranch) (mainPred it.itemId)
      (fun x => { x with quantity := x.quantity + it.quantity }) _ y hy (fun x => rfl),
      if_neg (by simp [branchPred_ne_mainPred (List.find?_some hy)])]
    ring
  · dsimp only []
    rw [qtys_append]
    simp [qtys, mainPred]

/-- Accepting a shipment item always raises the destination branch's
name-matched quantity by exactly the item's quantity (whether the branch
copy is updated or freshly created). -/
theorem shipIntoBranch_qtys_branch (toBranch : String) (it : ShipmentItem)
    (stock : List StockItem) (n : Nat) :
    qtys (branchPred it.itemName toBranch) (shipIntoBranch toBranch it stock n).1 =
      qtys (branchPred it.itemName toBranch) stock + it.quantity := by
  unfold shipIntoBranch
  cases hm : stock.find? (mainPred it.itemId) with
  | some m =>
    dsimp only []
    have hq1 : qtys (branchPred it.itemName toBranch)
        (updateFirst (mainPred it.itemId)
          (fun x => { x with quantity := x.quantity - it.quantity }) stock) =
        qtys (branchPred it.itemName toBranch) stock := by
      rw [@qtys_updateFirst (mainPred it.itemId) (branchPred it.itemName toBranch)
        (fun x => { x with quantity := x.quantity - it.quantity }) stock m hm
        (fun x => rfl),
        if_neg (by simp [mainPred_ne_branchPred (List.find?_some hm)])]
      ring
    split
    · rename_i y hy
      dsimp only []
      rw [@qtys_updateFirst (branchPred it.itemName toBranch)
        (branchPred it.itemName toBranch)
        (fun x => { x with quantity := x.quantity + it.quantity }) _ y hy
        (fun x => rfl), if_pos (List.find?_some hy), hq1]
      ring
    · dsimp only []
      rw [qtys_append, hq1]
      simp [qtys, branchPred]
  | none =>
    dsimp only []
    split
    · rename_i y hy
      dsimp only []
      rw [@qtys_updateFirst (branchPred it.itemName toBranch)
        (branchPred it.itemName toBranch)
        (fun x => { x with quantity := x.quantity + it.quantity }) _ y hy
        (fun x => rfl), if_pos (List.find?_some hy)]
      ring
    · dsimp only []
      rw [qtys_append]
      simp [qtys, branchPred]

/-- `reject_shipment` and the status flip of `accept_shipment` touch only
the shipments table; updating a shipment's status keeps it findable under
its id. -/
theorem find?_shipments_updateFirst {l : List Shipment} {sid : String} {sh : Shipment}
    {f : Shipment → Shipment}
    (hsh : l.find? (fun x => x.id == sid) = some sh)
    (hid : (f sh).id = sh.id) :
    (updateFirst (fun x => x.id == sid) f l).find? (fun x => x.id == sid) =
      some (f sh) := by
  refine find?_updateFirst_pos hsh ?_
  have := List.find?_some hsh
  simpa [hid] using this

/-- The closed form of accepting a pending shipment holding exactly one
medicine item: the ledger effect of `shipIntoBranch` on the medicines
table plus the status flip, with no validation in between. -/
theorem acceptShipment_single_med {s : State} {sid : String} {now : Nat} {sh : Shipment}
    {it : ShipmentItem}
    (hsh : s.shipments.find? (fun x => x.id == sid) = some sh)
    (hp : sh.status = "pending")
    (hit : s.shipmentItems.filter (fun x => x.shipmentId == sid) = [it])
    (hty : it.itemType = "medicine") :
    acceptShipment sid now s = .ok { s with
      medicines := (shipIntoBranch sh.toBranchId it s.medicines s.nextId).1,
      nextId := (shipIntoBranch sh.toBranchId it s.medicines s.nextId).2,
      shipments := updateFirst (fun x => x.id == sid)
        (fun x => { x with status := "accepted", acceptedAt := some now })
        s.shipments } := by
  unfold acceptShipment
  rw [hsh]
  dsimp only []
  rw [if_neg (by simp [hp]), hit]
  simp only [List.foldl]
  unfold acceptItem
  rw [if_pos hty]

/-! ## Shipment-accept closing lemmas shared by several claims -/

theorem shipmentStatus_updateFirst_accepted {s1 : State} {sid : String}
    {sh : Shipment} {now : Nat}
    (hsh : s1.shipments.find? (fun x => x.id == sid) = some sh) :
    shipmentStatus { s1 with
      shipments := updateFirst (fun x => x.id == sid)
        (fun x => { x with status := "accepted", acceptedAt := some now })
        s1.shipments } sid = some "accepted" := by
  unfold shipmentStatus
  rw [find?_shipments_updateFirst hsh rfl]
  rfl

theorem checkShipLines_error {kind : String} {stock : List StockItem} {sid : String}
    {ls : List ShipmentLine} {n : Nat} {e : Err}
    (h : checkShipLines kind stock sid ls n = .error e) : e = .insufficientStock := by
  induction ls generalizing n with
  | nil => simp [checkShipLines] at h
  | cons l rest ih =>
    unfold checkShipLines at h
    split at h
    · injection h with h
      exact h.symm
    · split at h
      · injection h with h
        exact h.symm
      · cases hr : checkShipLines kind stock sid rest (n + 1) with
        | error e2 =>
          rw [hr] at h
          simp only [Except.map, Except.error.injEq] at h
          subst h
          exact ih hr
        | ok items =>
          rw [hr] at h
          simp [Except.map] at h

theorem checkShipLines_ok_valid {kind : String} {stock : List StockItem} {sid : String}
    {ls : List ShipmentLine} {n : Nat} {items : List ShipmentItem}
    (h : checkShipLines kind stock sid ls n = .ok items) :
    ∀ l ∈ ls, ∃ m, stock.find? (mainPred l.itemId) = some m ∧
      l.quantity ≤ m.quantity := by
  induction ls generalizing n items with
  | nil =>
    intro l hl
    exact absurd hl (List.not_mem_nil l)
  | cons l0 rest ih =>
    intro l hl
    unfold checkShipLines at h
    split at h
    · exact absurd h (by simp)
    · rename_i m hm
      split at h
      · exact absurd h (by simp)
      · rename_i hq
        cases hr : checkShipLines kind stock sid rest (n + 1) with
        | error e2 =>
          rw [hr] at h
          simp [Except.map] at h
        | ok items2 =>
          rcases List.mem_cons.mp hl with rfl | hl2
          · exact ⟨m, hm, not_lt.mp hq⟩
          · exact ih hr l hl2

theorem createShipment_error {d : ShipmentData} {now : Nat} {s : State} {e : Err}
    (h : createShipment d now s = .error e) : e = .insufficientStock := by
  unfold createShipment at h
  dsimp only [] at h
  split at h
  · rename_i e1 h1
    injection h with h
    subst h
    exact checkShipLines_error h1
  · split at h
    · rename_i e1 h1
      injection h with h
      subst h
      exact checkShipLines_error h1
    · exact absurd h (by simp)

theorem createShipment_ok_shape {d : ShipmentData} {now : Nat} {s s' : State}
    (h : createShipment d now s = .ok s') :
    (∀ l ∈ d.medicines, ∃ m, s.medicines.find? (mainPred l.itemId) = some m ∧
       l.quantity ≤ m.quantity) ∧
    (∀ l ∈ d.medicalDevices, ∃ m, s.devices.find? (mainPred l.itemId) = some m ∧
       l.quantity ≤ m.quantity) ∧
    (∃ items, s'.shipments = s.shipments ++ [{
        id := freshId s.nextId, toBranchId := d.toBranchId, status := "pending",
        rejectionReason := none, createdAt := now, acceptedAt := none }] ∧
      s'.shipmentItems = s.shipmentItems ++ items) ∧
    (∃ nid, s'.notices = s.notices ++ [{
        id := nid, branchId := d.toBranchId, title := "Новая отправка",
        message := "Поступление от главного склада", isRead := false }]) := by
  unfold createShipment at h
  dsimp only [] at h
  split at h
  · exact absurd h (by simp)
  · rename_i medItems h1
    split at h
    · exact absurd h (by simp)
    · rename_i devItems h2
      simp only [Except.ok.injEq] at h
      subst h
      refine ⟨checkShipLines_ok_valid h1, checkShipLines_ok_valid h2,
        ⟨medItems ++ devItems, rfl, ?_⟩, ⟨_, rfl⟩⟩
      rw [List.append_assoc]

/-! ## Claim C1 -/

/-- Concrete state for claim C1: the warehouse holds 5 units of medicine
`m1` and two pending shipments each request 5 units of it. -/
def exC1 : State := {
  medicines := [⟨"m1", "Med", none, 0, 0, 5, none⟩],
  shipments := [⟨"s1", "b1", "pending", none, 0, none⟩,
                ⟨"s2", "b1", "pending", none, 0, none⟩],
  shipmentItems := [⟨"si1", "s1", "medicine", "m1", "Med", 5⟩,
                    ⟨"si2", "s2", "medicine", "m1", "Med", 5⟩] }

/-- C1, counterexample.  The claim says that accepting the second of two
pending shipments whose quantities together exceed the warehouse stock
fails `InsufficientStock`, rolls back, and leaves the shipment pending.
In the code both acceptances commit without error: the second leaves the
shipment `accepted` and drives the warehouse quantity to -5. -/
theorem C1_counterexample :
    (runAccept "s1" 1 exC1).2 = none ∧
    (runAccept "s2" 2 (runAccept "s1" 1 exC1).1).2 = none ∧
    shipmentStatus (runAccept "s2" 2 (runAccept "s1" 1 exC1).1).1 "s2" =
      some "accepted" ∧
    warehouseQty (runAccept "s2" 2 (runAccept "s1" 1 exC1).1).1 "m1" = -5 := by
  decide

/-- C1 (amended): `accept_shipment` performs no stock re-validation at all.
Accepting a pending shipment holding one medicine item whose warehouse
copy exists succeeds for every stock level — even when the item's
requested quantity exceeds the remaining stock — marking the shipment
accepted and decrementing the warehouse quantity by the requested amount
unconditionally (possibly below zero).  Hence of two over-subscribed
pending shipments, accepting the second after the first also succeeds and
leaves the warehouse quantity negative.  (The device branch of the loop is
verbatim-symmetric.) -/
theorem C1_accept_no_revalidation {s : State} {sid : String} {now : Nat}
    {sh : Shipment} {it : ShipmentItem} {m : StockItem}
    (hsh : s.shipments.find? (fun x => x.id == sid) = some sh)
    (hp : sh.status = "pending")
    (hit : s.shipmentItems.filter (fun x => x.shipmentId == sid) = [it])
    (hty : it.itemType = "medicine")
    (hm : s.medicines.find? (mainPred it.itemId) = some m) :
    (acceptShipment sid now s).map
      (fun t => (shipmentStatus t sid, warehouseQty t it.itemId)) =
    .ok (some "accepted", warehouseQty s it.itemId - it.quantity) := by
  rw [acceptShipment_single_med hsh hp hit hty]
  simp only [Except.map, Except.ok.injEq, Prod.mk.injEq]
  constructor
  · exact shipmentStatus_updateFirst_accepted hsh
  · exact shipIntoBranch_qtys_main hm

/-- C1, witness: the amended theorem applied to a warehouse holding 3
units while the single pending shipment requests 5. -/
theorem C1_witness :
    (acceptShipment "s1" 7 {
        medicines := [⟨"m1", "Med", none, 0, 0, 3, none⟩],
        shipments := [⟨"s1", "b1", "pending", none, 0, none⟩],
        shipmentItems := [⟨"si1", "s1", "medicine", "m1", "Med", 5⟩] }).map
      (fun t => (shipmentStatus t "s1", warehouseQty t "m1")) =
    .ok (some "accepted", -2) :=
  @C1_accept_no_revalidation {
      medicines := [⟨"m1", "Med", none, 0, 0, 3, none⟩],
      shipments := [⟨"s1", "b1", "pending", none, 0, none⟩],
      shipmentItems := [⟨"si1", "s1", "medicine", "m1", "Med", 5⟩] }
    "s1" 7 ⟨"s1", "b1", "pending", none, 0, none⟩
    ⟨"si1", "s1", "medicine", "m1", "Med", 5⟩
    ⟨"m1", "Med", none, 0, 0, 3, none⟩
    (by decide) rfl (by decide) rfl (by decide)

/-! ## Claim C2 -/

/-- Concrete state for claim C2: a non-negative warehouse (3 units of
`m1`) with one pending shipment requesting 5 units. -/
def exC2 : State := {
  medicines := [⟨"m1", "Med", none, 0, 0, 3, none⟩],
  shipments := [⟨"s1", "b1", "pending", none, 0, none⟩],
  shipmentItems := [⟨"si1", "s1", "medicine", "m1", "Med", 5⟩] }

/-- C2, counterexample.  The claim asserts every core operation leaves all
stock quantities non-negative.  Accepting the pending shipment of `exC2`
commits without error and leaves the warehouse row at -2 (the fresh branch
row holds 5). -/
theorem C2_counterexample :
    Nonneg exC2 ∧
    (runAccept "s1" 1 exC2).2 = none ∧
    (runAccept "s1" 1 exC2).1.medicines.map (fun m => m.quantity) = [-2, 5] := by
  refine ⟨⟨?_, ?_⟩, by decide, by decide⟩
  · intro m hm
    rw [show exC2.medicines = [⟨"m1", "Med", none, 0, 0, 3, none⟩] from rfl,
      List.mem_singleton] at hm
    subst hm
    decide
  · intro d hd
    exact absurd hd (List.not_mem_nil d)

/-- C2 (amended): every core operation except shipment acceptance
preserves non-negativity of all stock quantities at all locations:
transfer batches, shipment creation, shipment rejection, dispensing
requests, and (device) arrival batches all keep every quantity at least 0
when they commit.  Shipment acceptance does not (see the counterexample):
it decrements warehouse stock without any check. -/
theorem C2_nonneg_after_core_ops {s : State} (hs : Nonneg s) :
    (∀ b s', createTransfers b s = .ok s' → Nonneg s') ∧
    (∀ d now s', createShipment d now s = .ok s' → Nonneg s') ∧
    (∀ sid reason s', rejectShipment sid reason s = .ok s' → Nonneg s') ∧
    (∀ r s', createDispensing r s = .ok s' → Nonneg s') ∧
    (∀ b, Nonneg (createArrivals b s)) ∧
    (∀ b, Nonneg (createDeviceArrivals b s)) :=
  ⟨fun _ _ h => nonneg_createTransfers hs h,
   fun _ _ _ h => nonneg_createShipment hs h,
   fun _ _ _ h => nonneg_rejectShipment hs h,
   fun _ _ h => nonneg_createDispensing hs h,
   fun _ => nonneg_createArrivals hs,
   fun _ => nonneg_createDeviceArrivals hs⟩

/-- C2, witness: the preservation theorem applied to an arrival batch on a
one-row warehouse. -/
theorem C2_witness :
    Nonneg (createArrivals [⟨"m1", "Med", 5, 2, none⟩]
      { medicines := [⟨"m1", "Med", none, 1, 1, 3, none⟩] }) :=
  (@C2_nonneg_after_core_ops { medicines := [⟨"m1", "Med", none, 1, 1, 3, none⟩] }
    ⟨by
      intro m hm
      rw [List.mem_singleton] at hm
      subst hm
      decide,
     by
      intro d hd
      exact absurd hd (List.not_mem_nil d)⟩).2.2.2.2.1
    [⟨"m1", "Med", 5, 2, none⟩]

/-! ## Claim C3 -/

/-- Concrete state for claim C3's counterexample: a pending shipment whose
item has no warehouse-resident copy at all. -/
def exC3a : State := {
  shipments := [⟨"s1", "b1", "pending", none, 0, none⟩],
  shipmentItems := [⟨"si1", "s1", "medicine", "mX", "Ghost", 5⟩] }

/-- C3, counterexample.  The claim asserts every successful shipment
acceptance of quantity q decreases the warehouse quantity of the item by
exactly q.  Accepting the shipment of `exC3a` (q = 5) succeeds, yet the
warehouse quantity for the item stays 0 while the branch side still gains
5: stock is created out of nothing rather than moved. -/
theorem C3_counterexample :
    (runAccept "s1" 1 exC3a).2 = none ∧
    warehouseQty exC3a "mX" = 0 ∧
    warehouseQty (runAccept "s1" 1 exC3a).1 "mX" = 0 ∧
    branchQty (runAccept "s1" 1 exC3a).1 "Ghost" "b1" = 5 := by
  decide

/-- C3 (amended): for every successful Transfer of quantity q the claim
holds as stated — the warehouse quantity of the item drops by exactly q,
the destination branch's name-matched quantity rises by exactly q, total
medicine stock is conserved, and non-negativity is preserved.  For a
successful shipment acceptance the branch quantity always rises by
exactly q, but the warehouse quantity drops by q only when a
warehouse-resident copy of the item exists (and 0 otherwise), with no
insufficiency check, so acceptance can break both conservation and
non-negativity. -/
theorem C3_conservation {e : TransferData} {s s' : State} {m : StockItem}
    (hm : s.medicines.find? (mainPred e.medicineId) = some m)
    (hq : ¬ m.quantity < (e.quantity : Int))
    (h : createTransfers [e] s = .ok s') :
    (warehouseQty s' e.medicineId = warehouseQty s e.medicineId - e.quantity ∧
     branchQty s' e.medicineName e.toBranchId =
       branchQty s e.medicineName e.toBranchId + e.quantity ∧
     qtys (fun _ => true) s'.medicines = qtys (fun _ => true) s.medicines ∧
     (Nonneg s → Nonneg s')) ∧
    (∀ (t : State) (sid : String) (now : Nat) (sh : Shipment) (it : ShipmentItem),
      t.shipments.find? (fun x => x.id == sid) = some sh →
      sh.status = "pending" →
      t.shipmentItems.filter (fun x => x.shipmentId == sid) = [it] →
      it.itemType = "medicine" →
      (acceptShipment sid now t).map
        (fun u => (branchQty u it.itemName sh.toBranchId, warehouseQty u it.itemId)) =
      .ok (branchQty t it.itemName sh.toBranchId + it.quantity,
           warehouseQty t it.itemId -
             (match t.medicines.find? (mainPred it.itemId) with
              | some _ => it.quantity
              | none => 0))) := by
  constructor
  · have he : applyTransfer e s = .ok s' := by
      simp only [createTransfers] at h
      cases hc : applyTransfer e s with
      | error err =>
        rw [hc] at h
        exact absurd h (by simp)
      | ok s1 =>
        rw [hc] at h
        dsimp only [] at h
        simp only [createTransfers, Except.ok.injEq] at h
        subst h
        rfl
    unfold applyTransfer at he
    rw [hm] at he
    dsimp only [] at he
    rw [if_neg hq] at he
    split at he
    · rename_i y hy
      simp only [Except.ok.injEq] at he
      subst he
      refine ⟨?_, ?_, ?_, fun hs => nonneg_createTransfers hs h⟩
      · unfold warehouseQty
        dsimp only []
        rw [@qtys_updateFirst (branchPred e.medicineName e.toBranchId)
          (mainPred e.medicineId)
          (fun x => { x with quantity := x.quantity + (e.quantity : Int) }) _ y hy
          (fun x => rfl),
          if_neg (by simp [branchPred_ne_mainPred (List.find?_some hy)]),
          @qtys_updateFirst (mainPred e.medicineId) (mainPred e.medicineId)
          (fun x => { x with quantity := x.quantity - (e.quantity : Int) })
          s.medicines m hm (fun x => rfl), if_pos (List.find?_some hm)]
        ring
      · unfold branchQty
        dsimp only []
        rw [@qtys_updateFirst (branchPred e.medicineName e.toBranchId)
          (branchPred e.medicineName e.toBranchId)
          (fun x => { x with quantity := x.quantity + (e.quantity : Int) }) _ y hy
          (fun x => rfl), if_pos (List.find?_some hy),
          @qtys_updateFirst (mainPred e.medicineId)
          (branchPred e.medicineName e.toBranchId)
          (fun x => { x with quantity := x.quantity - (e.quantity : Int) })
          s.medicines m hm (fun x => rfl),
          if_neg (by simp [mainPred_ne_branchPred (List.find?_some hm)])]
        ring
      · dsimp only []
        rw [@qtys_updateFirst (branchPred e.medicineName e.toBranchId)
          (fun _ => true)
          (fun x => { x with quantity := x.quantity + (e.quantity : Int) }) _ y hy
          (fun x => rfl), if_pos rfl,
          @qtys_updateFirst (mainPred e.medicineId) (fun _ => true)
          (fun x => { x with quantity := x.quantity - (e.quantity : Int) })
          s.medicines m hm (fun x => rfl), if_pos rfl]
        ring
    · rename_i hy
      simp only [Except.ok.injEq] at he
      subst he
      have hnewMain : mainPred e.medicineId
          ({ id := freshId s.nextId, name := e.medicineName,
             categoryId := m.categoryId, purchasePrice := m.purchasePrice,
             sellPrice := m.sellPrice, quantity := (e.quantity : Int),
             branchId := some e.toBranchId } : StockItem) = false := by
        simp [mainPred]
      have hnewBranch : branchPred e.medicineName e.toBranchId
          ({ id := freshId s.nextId, name := e.medicineName,
             categoryId := m.categoryId, purchasePrice := m.purchasePrice,
             sellPrice := m.sellPrice, quantity := (e.quantity : Int),
             branchId := some e.toBranchId } : StockItem) = true := by
        simp [branchPred]
      refine ⟨?_, ?_, ?_, fun hs => nonneg_createTransfers hs h⟩
      · unfold warehouseQty
        dsimp only []
        rw [qtys_append,
          @qtys_updateFirst (mainPred e.medicineId) (mainPred e.medicineId)
          (fun x => { x with quantity := x.quantity - (e.quantity : Int) })
          s.medicines m hm (fun x => rfl), if_pos (List.find?_some hm)]
        simp only [qtys, hnewMain, Bool.false_eq_true, if_false]
        ring
      · unfold branchQty
        dsimp only []
        rw [qtys_append,
          @qtys_updateFirst (mainPred e.medicineId)
          (branchPred e.medicineName e.toBranchId)
          (fun x => { x with quantity := x.quantity - (e.quantity : Int) })
          s.medicines m hm (fun x => rfl),
          if_neg (by simp [mainPred_ne_branchPred (List.find?_some hm)])]
        simp only [qtys, hnewBranch, if_true]
        ring
      · dsimp only []
        rw [qtys_append,
          @qtys_updateFirst (mainPred e.medicineId) (fun _ => true)
          (fun x => { x with quantity := x.quantity - (e.quantity : Int) })
          s.medicines m hm (fun x => rfl), if_pos rfl]
        simp only [qtys, if_true]
        ring
  · intro t sid now sh it hsh hp hit hty
    rw [acceptShipment_single_med hsh hp hit hty]
    simp only [Except.map, Except.ok.injEq, Prod.mk.injEq]
    constructor
    · exact shipIntoBranch_qtys_branch sh.toBranchId it t.medicines t.nextId
    · cases hmm : t.medicines.find? (mainPred it.itemId) with
      | some m2 =>
        unfold warehouseQty
        dsimp only []
        rw [shipIntoBranch_qtys_main hmm]
      | none =>
        unfold warehouseQty
        dsimp only []
        rw [shipIntoBranch_qtys_main_none hmm]
        ring

/-- Concrete transfer input for claim C3's witness: move 4 of the 10
warehouse units of `m1` to branch `b1`. -/
def exC3t : State := { medicines := [⟨"m1", "MedA", none, 10, 20, 10, none⟩] }

/-- The state `createTransfers` produces from `exC3t` for that input. -/
def exC3tRes : State := {
  medicines := [⟨"m1", "MedA", none, 10, 20, 6, none⟩,
                ⟨"gen-0", "MedA", none, 10, 20, 4, some "b1"⟩],
  transfers := [⟨"gen-1", "m1", "MedA", 4, "main", "b1"⟩],
  nextId := 2 }

/-- C3, witness: the transfer half of the conservation theorem applied to
`exC3t`. -/
theorem C3_witness :
    warehouseQty exC3tRes "m1" = warehouseQty exC3t "m1" - (4 : Nat) ∧
    branchQty exC3tRes "MedA" "b1" = branchQty exC3t "MedA" "b1" + (4 : Nat) ∧
    qtys (fun _ => true) exC3tRes.medicines = qtys (fun _ => true) exC3t.medicines :=
  ⟨(@C3_conservation ⟨"m1", "MedA", 4, none, "b1"⟩ exC3t exC3tRes
      ⟨"m1", "MedA", none, 10, 20, 10, none⟩ (by decide) (by decide) (by decide)).1.1,
   (@C3_conservation ⟨"m1", "MedA", 4, none, "b1"⟩ exC3t exC3tRes
      ⟨"m1", "MedA", none, 10, 20, 10, none⟩ (by decide) (by decide) (by decide)).1.2.1,
   (@C3_conservation ⟨"m1", "MedA", 4, none, "b1"⟩ exC3t exC3tRes
      ⟨"m1", "MedA", none, 10, 20, 10, none⟩ (by decide) (by decide) (by decide)).1.2.2.1⟩

/-! ## Claim C4 -/

/-- C4, counterexample.  The claim says rejecting a shipment that is
already `accepted` (a terminal state) fails `Conflict`.  The code's
`reject_shipment` has no status guard: it succeeds and overwrites the
status to `rejected`, re-entering a terminal state. -/
theorem C4_counterexample :
    (rejectShipment "s1" "late"
      { shipments := [⟨"s1", "b1", "accepted", none, 0, some 1⟩] }).map
      (fun t => shipmentStatus t "s1") = .ok (some "rejected") := by
  decide

/-- C4 (amended): calling accept on a shipment whose status is not
`pending` fails `Conflict` with no ledger effect.  Calling reject on it,
however, never fails `Conflict`: it succeeds, overwrites the status to
`rejected` and stores the reason — although it still applies no stock
mutation (medicines and devices are untouched). -/
theorem C4_terminal_guards {s : State} {sid : String} {sh : Shipment}
    (hsh : s.shipments.find? (fun x => x.id == sid) = some sh)
    (hnp : sh.status ≠ "pending") :
    (∀ now, acceptShipment sid now s = .error .conflict) ∧
    (∀ reason, (rejectShipment sid reason s).map
        (fun t => (t.medicines, t.devices, shipmentStatus t sid)) =
      .ok (s.medicines, s.devices, some "rejected")) := by
  constructor
  · intro now
    unfold acceptShipment
    rw [hsh]
    dsimp only []
    rw [if_pos hnp]
  · intro reason
    unfold rejectShipment
    rw [hsh]
    dsimp only []
    simp only [Except.map, Except.ok.injEq, Prod.mk.injEq]
    refine ⟨trivial, trivial, ?_⟩
    unfold shipmentStatus
    rw [find?_shipments_updateFirst hsh rfl]
    rfl

/-- C4, witness: the guards applied to a shipment already accepted. -/
theorem C4_witness :
    acceptShipment "s1" 5 { shipments := [⟨"s1", "b1", "accepted", none, 0, some 1⟩] } =
      .error .conflict ∧
    (rejectShipment "s1" "why"
        { shipments := [⟨"s1", "b1", "accepted", none, 0, some 1⟩] }).map
      (fun t => (t.medicines, t.devices, shipmentStatus t "s1")) =
      .ok ([], [], some "rejected") :=
  ⟨(@C4_terminal_guards { shipments := [⟨"s1", "b1", "accepted", none, 0, some 1⟩] }
      "s1" ⟨"s1", "b1", "accepted", none, 0, some 1⟩ (by decide) (by decide)).1 5,
   (@C4_terminal_guards { shipments := [⟨"s1", "b1", "accepted", none, 0, some 1⟩] }
      "s1" ⟨"s1", "b1", "accepted", none, 0, some 1⟩ (by decide) (by decide)).2 "why"⟩

/-! ## Claim C5 -/

/-- C5: a transfer batch whose head entry finds no warehouse-resident
medicine, or finds one with less stock than requested, fails (with the
`InsufficientStock` error kind the code reports in both cases, one of the
two kinds the claim allows) and the whole batch is rolled back; more
generally any failing transfer batch leaves the observable state exactly
as it was — no warehouse quantity, branch quantity, or transfer record
from the batch survives. -/
theorem C5_transfer_insufficient {e : TransferData} {rest : List TransferData}
    {s : State}
    (h : s.medicines.find? (mainPred e.medicineId) = none ∨
         ∃ m, s.medicines.find? (mainPred e.medicineId) = some m ∧
           m.quantity < (e.quantity : Int)) :
    runTransfers (e :: rest) s = (s, some .insufficientStock) ∧
    (∀ (b : List TransferData) (err : Err),
      (runTransfers b s).2 = some err → (runTransfers b s).1 = s) := by
  constructor
  · unfold runTransfers createTransfers applyTransfer
    rcases h with h1 | ⟨m, h1, h2⟩
    · rw [h1]
    · rw [h1]
      dsimp only []
      rw [if_pos h2]
  · intro b err hberr
    unfold runTransfers at hberr ⊢
    cases hc : createTransfers b s with
    | ok s1 =>
      rw [hc] at hberr
      exact absurd hberr (by simp)
    | error e2 =>
      rfl

/-- C5, witness: a one-entry batch on an empty warehouse fails and leaves
the state untouched. -/
theorem C5_witness :
    runTransfers [⟨"m1", "Med", 1, none, "b1"⟩] {} = ({}, some .insufficientStock) :=
  (@C5_transfer_insufficient ⟨"m1", "Med", 1, none, "b1"⟩ [] {}
    (Or.inl (by decide))).1

/-! ## Claim C6 -/

/-- C6: shipment creation never changes any stock quantity — the
medicines and devices tables of the committed state are exactly those of
the input state whether the call succeeds or fails; the only possible
error is `InsufficientStock`; and a successful call means every medicine
and device line was validated against the warehouse stock, one `pending`
shipment with its items was appended, and exactly one notification to the
destination branch was emitted. -/
theorem C6_creation_changes_no_stock (d : ShipmentData) (now : Nat) (s : State) :
    (runCreateShipment d now s).1.medicines = s.medicines ∧
    (runCreateShipment d now s).1.devices = s.devices ∧
    (∀ e, (runCreateShipment d now s).2 = some e → e = .insufficientStock) ∧
    ((runCreateShipment d now s).2 = none →
      (∀ l ∈ d.medicines, ∃ m, s.medicines.find? (mainPred l.itemId) = some m ∧
        l.quantity ≤ m.quantity) ∧
      (∀ l ∈ d.medicalDevices, ∃ m, s.devices.find? (mainPred l.itemId) = some m ∧
        l.quantity ≤ m.quantity) ∧
      (∃ items, (runCreateShipment d now s).1.shipments = s.shipments ++ [{
          id := freshId s.nextId, toBranchId := d.toBranchId, status := "pending",
          rejectionReason := none, createdAt := now, acceptedAt := none }] ∧
        (runCreateShipment d now s).1.shipmentItems = s.shipmentItems ++ items) ∧
      (∃ nid, (runCreateShipment d now s).1.notices = s.notices ++ [{
          id := nid, branchId := d.toBranchId, title := "Новая отправка",
          message := "Поступление от главного склада", isRead := false }])) := by
  unfold runCreateShipment
  cases hc : createShipment d now s with
  | error e0 =>
    dsimp only []
    refine ⟨rfl, rfl, ?_, ?_⟩
    · intro e he
      injection he with he
      subst he
      exact createShipment_error hc
    · intro hnone
      exact absurd hnone (by simp)
  | ok s1 =>
    dsimp only []
    obtain ⟨hmed, hdev⟩ := createShipment_stock_frame hc
    obtain ⟨hv1, hv2, hship, hnot⟩ := createShipment_ok_shape hc
    exact ⟨hmed, hdev, fun e he => absurd he (by simp),
      fun _ => ⟨hv1, hv2, hship, hnot⟩⟩

/-- Concrete input for claim C6's witness: one medicine line against a
warehouse holding exactly the requested quantity. -/
def exC6 : State := { medicines := [⟨"m1", "MedB", none, 0, 0, 5, none⟩] }

/-- C6, witness: the success half of the theorem at `exC6` — the pending
shipment and its item are appended and one notification emitted. -/
theorem C6_witness :
    (∃ items, (runCreateShipment ⟨"b1", [⟨"m1", 5⟩], []⟩ 9 exC6).1.shipments =
        exC6.shipments ++ [{
          id := freshId exC6.nextId, toBranchId := "b1", status := "pending",
          rejectionReason := none, createdAt := 9, acceptedAt := none }] ∧
      (runCreateShipment ⟨"b1", [⟨"m1", 5⟩], []⟩ 9 exC6).1.shipmentItems =
        exC6.shipmentItems ++ items) ∧
    (∃ nid, (runCreateShipment ⟨"b1", [⟨"m1", 5⟩], []⟩ 9 exC6).1.notices =
        exC6.notices ++ [{
          id := nid, branchId := "b1", title := "Новая отправка",
          message := "Поступление от главного склада", isRead := false }]) :=
  ((C6_creation_changes_no_stock ⟨"b1", [⟨"m1", 5⟩], []⟩ 9 exC6).2.2.2
    (by decide)).2.2

/-! ## Claim C7 -/

/-- C7: one (device) arrival entry always appends the immutable arrival
record (with the request's sell price, defaulting to 0); when a warehouse
copy matched by id exists, its quantity grows by the entry's quantity, its
purchase price is overwritten unconditionally and its sell price only when
one was supplied; when no warehouse copy exists the stock tables are left
entirely unchanged; and the other kind's stock table is never touched. -/
theorem C7_arrival_effects (e : ArrivalData) (s : State) :
    ((applyArrival e s).arrivals = s.arrivals ++ [{
        id := freshId s.nextId, itemId := e.itemId, itemName := e.itemName,
        quantity := e.quantity, purchasePrice := e.purchasePrice,
        sellPrice := e.sellPrice.getD 0 }] ∧
     (applyArrival e s).devices = s.devices ∧
     (∀ m, s.medicines.find? (mainPred e.itemId) = some m →
        (applyArrival e s).medicines.find? (mainPred e.itemId) =
          some { m with
            quantity := m.quantity + e.quantity,
            purchasePrice := e.purchasePrice,
            sellPrice := (match e.sellPrice with
              | some sp => sp
              | none => m.sellPrice) }) ∧
     (s.medicines.find? (mainPred e.itemId) = none →
        (applyArrival e s).medicines = s.medicines)) ∧
    ((applyDeviceArrival e s).deviceArrivals = s.deviceArrivals ++ [{
        id := freshId s.nextId, itemId := e.itemId, itemName := e.itemName,
        quantity := e.quantity, purchasePrice := e.purchasePrice,
        sellPrice := e.sellPrice.getD 0 }] ∧
     (applyDeviceArrival e s).medicines = s.medicines ∧
     (∀ m, s.devices.find? (mainPred e.itemId) = some m →
        (applyDeviceArrival e s).devices.find? (mainPred e.itemId) =
          some { m with
            quantity := m.quantity + e.quantity,
            purchasePrice := e.purchasePrice,
            sellPrice := (match e.sellPrice with
              | some sp => sp
              | none => m.sellPrice) }) ∧
     (s.devices.find? (mainPred e.itemId) = none →
        (applyDeviceArrival e s).devices = s.devices)) := by
  refine ⟨⟨rfl, rfl, ?_, ?_⟩, ⟨rfl, rfl, ?_, ?_⟩⟩
  · intro m hm
    show (arriveInto e s.medicines).find? (mainPred e.itemId) = _
    unfold arriveInto
    rw [hm]
    dsimp only []
    refine find?_updateFirst_pos hm ?_
    have h2 := List.find?_some hm
    exact h2
  · intro hm
    show arriveInto e s.medicines = s.medicines
    unfold arriveInto
    rw [hm]
  · intro m hm
    show (arriveInto e s.devices).find? (mainPred e.itemId) = _
    unfold arriveInto
    rw [hm]
    dsimp only []
    refine find?_updateFirst_pos hm ?_
    have h2 := List.find?_some hm
    exact h2
  · intro hm
    show arriveInto e s.devices = s.devices
    unfold arriveInto
    rw [hm]

/-- Concrete state for claim C7's witness. -/
def exC7 : State := { medicines := [⟨"m1", "MedA", none, 10, 20, 7, none⟩] }

/-- C7, witness: an arrival of 5 units at purchase price 11 with no sell
price supplied updates the matched warehouse row in place. -/
theorem C7_witness :
    (applyArrival ⟨"m1", "MedA", 5, 11, none⟩ exC7).medicines.find? (mainPred "m1") =
      some ⟨"m1", "MedA", none, 11, 20, 12, none⟩ :=
  (C7_arrival_effects ⟨"m1", "MedA", 5, 11, none⟩ exC7).1.2.2.1
    ⟨"m1", "MedA", none, 10, 20, 7, none⟩ (by decide)

/-! ## Claim C8 -/

/-- C8: a dispensing request fails `NotFound` with no state change when
the patient or the employee is absent; a request whose single line is a
medicine backed by enough branch-local stock (matched by id and branch)
commits: the row is decremented by the line's quantity and exactly one
dispensing record and one dispensing item are appended; and a request
whose single line is absent or under-stocked fails `InsufficientStock`
with the whole batch rolled back — no quantity change, record or item is
observable. -/
theorem C8_dispensing (r : DispenseRequest) (s : State) :
    ((s.patients.find? (fun p => p.id == r.patientId) = none ∨
      s.employees.find? (fun p => p.id == r.employeeId) = none) →
        runDispensing r s = (s, some .notFound)) ∧
    (∀ patient employee l m,
      s.patients.find? (fun p => p.id == r.patientId) = some patient →
      s.employees.find? (fun p => p.id == r.employeeId) = some employee →
      r.items = [l] → l.type = "medicine" →
      s.medicines.find? (localPred l.id r.branchId) = some m →
      ¬ m.quantity < l.quantity →
      runDispensing r s = ({ s with
        medicines := updateFirst (localPred l.id r.branchId)
          (fun x => { x with quantity := x.quantity - l.quantity }) s.medicines,
        dispRecords := s.dispRecords ++ [{
          id := freshId s.nextId, patientId := r.patientId,
          patientName := patient.firstName ++ " " ++ patient.lastName,
          employeeId := r.employeeId,
          employeeName := employee.firstName ++ " " ++ employee.lastName,
          branchId := r.branchId }],
        dispItems := s.dispItems ++ [{
          id := freshId (s.nextId + 1), recordId := freshId s.nextId,
          itemType := "medicine", itemId := l.id, itemName := l.name,
          quantity := l.quantity }],
        nextId := s.nextId + 2 }, none)) ∧
    (∀ patient employee l,
      s.patients.find? (fun p => p.id == r.patientId) = some patient →
      s.employees.find? (fun p => p.id == r.employeeId) = some employee →
      r.items = [l] → l.type = "medicine" →
      (s.medicines.find? (localPred l.id r.branchId) = none ∨
       ∃ m, s.medicines.find? (localPred l.id r.branchId) = some m ∧
         m.quantity < l.quantity) →
      runDispensing r s = (s, some .insufficientStock)) := by
  refine ⟨?_, ?_, ?_⟩
  · intro hcase
    unfold runDispensing createDispensing
    cases hp2 : s.patients.find? (fun p => p.id == r.patientId) with
    | none => rfl
    | some p =>
      rcases hcase with h1 | h1
      · rw [hp2] at h1
        exact absurd h1 (by simp)
      · rw [h1]
  · intro patient employee l m hp he hl hty hm hq
    unfold runDispensing createDispensing
    rw [hp, he]
    dsimp only []
    rw [hl]
    simp only [dispenseItems]
    unfold dispenseItem
    rw [if_pos hty]
    dsimp only []
    rw [hm]
    dsimp only []
    rw [if_neg hq]
  · intro patient employee l hp he hl hty hcase
    unfold runDispensing createDispensing
    rw [hp, he]
    dsimp only []
    rw [hl]
    simp only [dispenseItems]
    unfold dispenseItem
    rw [if_pos hty]
    dsimp only []
    rcases hcase with h1 | ⟨m, h1, h2⟩
    · rw [h1]
    · rw [h1]
      dsimp only []
      rw [if_pos h2]

/-- Concrete state for claim C8's witness: branch `b1` holds exactly 3
units of `m1`. -/
def exC8 : State := {
  medicines := [⟨"m1", "MedC", none, 0, 0, 3, some "b1"⟩],
  patients := [⟨"p1", "Ann", "Lee"⟩],
  employees := [⟨"e1", "Bob", "Kim"⟩] }

/-- C8, witness: dispensing 3 units of `m1` at branch `b1` empties the row
and appends one record and one item. -/
theorem C8_witness :
    runDispensing ⟨"p1", "e1", "b1", [⟨"medicine", "m1", "MedC", 3⟩]⟩ exC8 =
    ({ medicines := [⟨"m1", "MedC", none, 0, 0, 0, some "b1"⟩],
       patients := [⟨"p1", "Ann", "Lee"⟩],
       employees := [⟨"e1", "Bob", "Kim"⟩],
       dispRecords := [⟨"gen-0", "p1", "Ann Lee", "e1", "Bob Kim", "b1"⟩],
       dispItems := [⟨"gen-1", "gen-0", "medicine", "m1", "MedC", 3⟩],
       nextId := 2 }, none) :=
  (@C8_dispensing ⟨"p1", "e1", "b1", [⟨"medicine", "m1", "MedC", 3⟩]⟩ exC8).2.1
    ⟨"p1", "Ann", "Lee"⟩ ⟨"e1", "Bob", "Kim"⟩ ⟨"medicine", "m1", "MedC", 3⟩
    ⟨"m1", "MedC", none, 0, 0, 3, some "b1"⟩
    (by decide) (by decide) rfl rfl (by decide) (by decide)

/-! ## Claim C9 -/

/-- C9: accepting a pending shipment whose single medicine item has no
warehouse-resident copy (by id with null branch) still succeeds; no
warehouse row is touched — the only ledger change is that, when the
destination branch holds no row under the snapshotted name either, a new
branch row is appended carrying the snapshot name, the item's quantity,
purchase and sell prices 0 and no category; the shipment is marked
accepted. -/
theorem C9_accept_unmatched_item {s : State} {sid : String} {now : Nat}
    {sh : Shipment} {it : ShipmentItem}
    (hsh : s.shipments.find? (fun x => x.id == sid) = some sh)
    (hp : sh.status = "pending")
    (hit : s.shipmentItems.filter (fun x => x.shipmentId == sid) = [it])
    (hty : it.itemType = "medicine")
    (hmain : s.medicines.find? (mainPred it.itemId) = none)
    (hbr : s.medicines.find? (branchPred it.itemName sh.toBranchId) = none) :
    acceptShipment sid now s = .ok { s with
      medicines := s.medicines ++ [{
        id := freshId s.nextId, name := it.itemName, categoryId := none,
        purchasePrice := 0, sellPrice := 0, quantity := it.quantity,
        branchId := some sh.toBranchId }],
      nextId := s.nextId + 1,
      shipments := updateFirst (fun x => x.id == sid)
        (fun x => { x with status := "accepted", acceptedAt := some now })
        s.shipments } := by
  rw [acceptShipment_single_med hsh hp hit hty]
  have hpair : shipIntoBranch sh.toBranchId it s.medicines s.nextId =
      (s.medicines ++ [{
        id := freshId s.nextId, name := it.itemName, categoryId := none,
        purchasePrice := 0, sellPrice := 0, quantity := it.quantity,
        branchId := some sh.toBranchId }], s.nextId + 1) := by
    unfold shipIntoBranch
    rw [hmain]
    dsimp only []
    rw [hbr]
  rw [hpair]

/-- Concrete state for claim C9's witness: pending shipment of 5 `Ghost`
units whose item id matches nothing in the warehouse. -/
def exC9 : State := {
  shipments := [⟨"s1", "b1", "pending", none, 0, none⟩],
  shipmentItems := [⟨"si1", "s1", "medicine", "mX", "Ghost", 5⟩] }

/-- C9, witness: the theorem applied to `exC9`. -/
theorem C9_witness :
    acceptShipment "s1" 4 exC9 = .ok { exC9 with
      medicines := [⟨"gen-0", "Ghost", none, 0, 0, 5, some "b1"⟩],
      nextId := 1,
      shipments := [⟨"s1", "b1", "accepted", none, 0, some 4⟩] } :=
  @C9_accept_unmatched_item exC9 "s1" 4 ⟨"s1", "b1", "pending", none, 0, none⟩
    ⟨"si1", "s1", "medicine", "mX", "Ghost", 5⟩
    (by decide) rfl (by decide) rfl (by decide) (by decide)

/-! ## Claim C10 -/

/-- C10: a dispensing request whose single line has a type that is neither
`medicine` nor `medical_device` still succeeds, and the line is silently
skipped: no stock row changes, no dispensing item is created, yet the
dispensing record is appended. -/
theorem C10_unknown_type_skipped {r : DispenseRequest} {s : State}
    {patient employee : Person} {l : DispenseLine}
    (hp : s.patients.find? (fun p => p.id == r.patientId) = some patient)
    (he : s.employees.find? (fun p => p.id == r.employeeId) = some employee)
    (hl : r.items = [l])
    (h1 : l.type ≠ "medicine") (h2 : l.type ≠ "medical_device") :
    runDispensing r s = ({ s with
      dispRecords := s.dispRecords ++ [{
        id := freshId s.nextId, patientId := r.patientId,
        patientName := patient.firstName ++ " " ++ patient.lastName,
        employeeId := r.employeeId,
        employeeName := employee.firstName ++ " " ++ employee.lastName,
        branchId := r.branchId }],
      nextId := s.nextId + 1 }, none) := by
  unfold runDispensing createDispensing
  rw [hp, he]
  dsimp only []
  rw [hl]
  simp only [dispenseItems]
  unfold dispenseItem
  rw [if_neg h1, if_neg h2]

/-- C10, witness: a line of type `potion` is skipped while the request
succeeds and records the dispensing. -/
theorem C10_witness :
    runDispensing ⟨"p1", "e1", "b1", [⟨"potion", "m1", "MedC", 3⟩]⟩
      { medicines := [⟨"m1", "MedC", none, 0, 0, 3, some "b1"⟩],
        patients := [⟨"p1", "Ann", "Lee"⟩],
        employees := [⟨"e1", "Bob", "Kim"⟩] } =
    ({ medicines := [⟨"m1", "MedC", none, 0, 0, 3, some "b1"⟩],
       patients := [⟨"p1", "Ann", "Lee"⟩],
       employees := [⟨"e1", "Bob", "Kim"⟩],
       dispRecords := [⟨"gen-0", "p1", "Ann Lee", "e1", "Bob Kim", "b1"⟩],
       nextId := 1 }, none) :=
  @C10_unknown_type_skipped ⟨"p1", "e1", "b1", [⟨"potion", "m1", "MedC", 3⟩]⟩
    { medicines := [⟨"m1", "MedC", none, 0, 0, 3, some "b1"⟩],
      patients := [⟨"p1", "Ann", "Lee"⟩],
      employees := [⟨"e1", "Bob", "Kim"⟩] }
    ⟨"p1", "Ann", "Lee"⟩ ⟨"e1", "Bob", "Kim"⟩ ⟨"potion", "m1", "MedC", 3⟩
    (by decide) (by decide) rfl (by decide) (by decide)

end Med
